import Mathlib

/-!
Shallow embedding of `src/app.js` from The-Blair-Crypto-Report: a client-side
dashboard that formats relative times, renders headline lists, builds a
self-measuring price ticker, renders market tables, and refreshes everything
from two JSON feeds.  JavaScript numbers are modelled by `JsNum` (rationals
plus NaN and the infinities), DOM regions by explicit record fields where
`none` means the element is absent.
-/

/-- JavaScript number values relevant to this program: finite values are exact
rationals; NaN and the two infinities are separate constructors. -/
inductive JsNum where
  | nan : JsNum
  | inf : JsNum
  | ninf : JsNum
  | num : ℚ → JsNum
deriving DecidableEq

namespace JsNum

/-- JS addition: NaN propagates, opposite infinities give NaN. -/
def add : JsNum → JsNum → JsNum
  | num a, num b => num (a + b)
  | nan, _ => nan
  | _, nan => nan
  | inf, ninf => nan
  | ninf, inf => nan
  | inf, _ => inf
  | _, inf => inf
  | ninf, _ => ninf
  | _, ninf => ninf

/-- JS subtraction: NaN propagates, like infinities cancel to NaN. -/
def sub : JsNum → JsNum → JsNum
  | num a, num b => num (a - b)
  | nan, _ => nan
  | _, nan => nan
  | inf, inf => nan
  | ninf, ninf => nan
  | inf, _ => inf
  | ninf, _ => ninf
  | _, inf => ninf
  | _, ninf => inf

/-- `Math.max(0, x)`: NaN propagates, negative infinity clamps to 0. -/
def max0 : JsNum → JsNum
  | nan => nan
  | inf => inf
  | ninf => num 0
  | num a => num (max 0 a)

/-- JS division: `0/0` is NaN, nonzero over zero is a signed infinity. -/
def div : JsNum → JsNum → JsNum
  | num a, num b =>
    if b = 0 then (if a = 0 then nan else if 0 < a then inf else ninf)
    else num (a / b)
  | nan, _ => nan
  | _, nan => nan
  | inf, inf => nan
  | inf, ninf => nan
  | ninf, inf => nan
  | ninf, ninf => nan
  | inf, num b => if b < 0 then ninf else inf
  | ninf, num b => if b < 0 then inf else ninf
  | num _, inf => num 0
  | num _, ninf => num 0

/-- `Math.floor`: the identity on NaN and the infinities. -/
def floor : JsNum → JsNum
  | num a => num ((Int.floor a : ℤ) : ℚ)
  | x => x

/-- JS `<` comparison: any comparison against NaN is false. -/
def lt : JsNum → JsNum → Bool
  | nan, _ => false
  | _, nan => false
  | inf, _ => false
  | _, ninf => false
  | ninf, _ => true
  | num a, num b => decide (a < b)
  | num _, inf => true

/-- JS number-to-string coercion as used by string concatenation. -/
def jsToString : JsNum → String
  | nan => "NaN"
  | inf => "Infinity"
  | ninf => "-Infinity"
  | num q => if q.den = 1 then toString q.num else toString q

end JsNum

/-- `x.toFixed(2)`: two decimal digits, rounding half away from zero on the
magnitude, with the sign prepended afterwards (ECMA `Number.prototype.toFixed`
applied to exact rational inputs). -/
def fmtFixed2 (q : ℚ) : String :=
  let n : ℕ := (Int.floor (|q| * 100 + 1 / 2)).toNat
  (if q < 0 then "-" else "") ++ toString (n / 100) ++ "." ++
    (if n % 100 < 10 then "0" else "") ++ toString (n % 100)

/-- `JsNum`-level `toFixed(2)`: `"NaN"` for NaN, `"Infinity"` for infinities. -/
def jsToFixed2 : JsNum → String
  | JsNum.nan => "NaN"
  | JsNum.inf => "Infinity"
  | JsNum.ninf => "-Infinity"
  | JsNum.num q => fmtFixed2 q

/-- Drop trailing `'0'` characters. -/
def stripZeros (s : List Char) : List Char :=
  (s.reverse.dropWhile (fun c => c = '0')).reverse

/-- Insert a `','` after every three characters of a reversed digit list
(thousands grouping as done by `Number.prototype.toLocaleString`). -/
def groupRev : List Char → List Char
  | a :: b :: c :: d :: rest => a :: b :: c :: ',' :: groupRev (d :: rest)
  | l => l

/-- Zero-pad a number below 1000 to three digits. -/
def padThree (n : ℕ) : String :=
  (if n < 100 then "0" else "") ++ (if n < 10 then "0" else "") ++ toString n

/-- `Number(x).toLocaleString()` with the en-US defaults: thousands grouping
and at most three fractional digits. -/
def toLocaleString (q : ℚ) : String :=
  let n : ℕ := (Int.floor (|q| * 1000 + 1 / 2)).toNat
  let ip := n / 1000
  let fp := n % 1000
  let ipStr := String.mk ((groupRev (toString ip).toList.reverse).reverse)
  let fpChars := stripZeros (padThree fp).toList
  (if q < 0 then "-" else "") ++ ipStr ++
    (if fpChars.isEmpty then "" else "." ++ String.mk fpChars)

/-- `fmtTimeAgo` from `src/app.js`: `now` is `Date.now()` and `getTime` is
`new Date(dateStr).getTime()` (NaN when the timestamp is unparseable, because
the `Date` constructor never throws on a string argument). -/
def fmtTimeAgo (now : ℚ) (getTime : JsNum) : String :=
  let delta := JsNum.max0 (JsNum.sub (JsNum.num now) getTime)
  let mins := JsNum.floor (JsNum.div delta (JsNum.num 60000))
  if JsNum.lt mins (JsNum.num 1) then "just now"
  else if JsNum.lt mins (JsNum.num 60) then JsNum.jsToString mins ++ "m ago"
  else
    let hrs := JsNum.floor (JsNum.div mins (JsNum.num 60))
    if JsNum.lt hrs (JsNum.num 24) then JsNum.jsToString hrs ++ "h ago"
    else
      let days := JsNum.floor (JsNum.div hrs (JsNum.num 24))
      JsNum.jsToString days ++ "d ago"

/-- The time formatter exactly as the spec words it, over a nonnegative
elapsed time in milliseconds: floored whole minutes, hours and days of the
elapsed time select the tier. -/
def fmtTimeAgoSpec (e : ℕ) : String :=
  if e / 60000 < 1 then "just now"
  else if e / 60000 < 60 then toString (e / 60000) ++ "m ago"
  else if e / 3600000 < 24 then toString (e / 3600000) ++ "h ago"
  else toString (e / 86400000) ++ "d ago"

/-- Tier index of an elapsed time in milliseconds: 0 = just now, 1 = minutes,
2 = hours, 3 = days. -/
def tierOf (e : ℕ) : ℕ :=
  if e / 60000 < 1 then 0
  else if e / 60000 < 60 then 1
  else if e / 3600000 < 24 then 2
  else 3

/-- The label a given tier produces for a given elapsed time. -/
def tierLabel (tier e : ℕ) : String :=
  match tier with
  | 0 => "just now"
  | 1 => toString (e / 60000) ++ "m ago"
  | 2 => toString (e / 3600000) ++ "h ago"
  | _ => toString (e / 86400000) ++ "d ago"

/-- A headline item as consumed by `renderList`. -/
structure Item where
  title : String
  link : String
  source : Option String
  published_at : Option String
deriving DecidableEq

/-- One rendered `<li>` entry: an anchor plus a metadata `<span>`. -/
structure Entry where
  href : String
  target : String
  rel : String
  text : String
  metaClass : String
  metaText : String
deriving DecidableEq

/-- The list entry `renderList` builds for one item.  `parse` models
`new Date(s).getTime()`; a missing `published_at` parses to NaN. -/
def entryOf (parse : String → JsNum) (now : ℚ) (it : Item) : Entry :=
  { href := it.link
    target := "_blank"
    rel := "noopener"
    text := it.title
    metaClass := "meta"
    metaText :=
      fmtTimeAgo now (match it.published_at with | some s => parse s | none => JsNum.nan) ++
        (match it.source with | some s => if s = "" then "" else " • " ++ s | none => "") }

/-- `renderList` acting on one target region: `none` models an absent element
(no-op); otherwise the prior content is cleared and one entry is pushed per
item, in order.  `items = none` models a missing feed bucket (`items || []`). -/
def renderListTo (parse : String → JsNum) (now : ℚ)
    (el : Option (List Entry)) (items : Option (List Item)) : Option (List Entry) :=
  match el with
  | none => none
  | some _ => some ((items.getD []).foldl (fun acc it => acc ++ [entryOf parse now it]) [])

/-- A price record from the prices feed. -/
structure PriceItem where
  symbol : Option String
  price : Option ℚ
  change24h : Option ℚ
  rank : Option ℕ
deriving DecidableEq

/-- One rendered market-table row: symbol cell, price cell, change cell with
its optional color class. -/
structure MarketRow where
  sym : String
  priceText : String
  changeText : String
  changeClass : Option String
deriving DecidableEq

/-- The row `renderMarkets` builds for one price item. -/
def marketRowOf (c : PriceItem) : MarketRow :=
  { sym := (c.symbol.getD "").toUpper
    priceText := match c.price with
      | some q => "$" ++ toLocaleString q
      | none => ""
    changeText := match c.change24h with
      | some q => fmtFixed2 q ++ "%"
      | none => "—"
    changeClass := match c.change24h with
      | some q => some (if 0 ≤ q then "positive" else "negative")
      | none => none }

/-- `renderMarkets` acting on the `market-body` region: absent element is a
no-op, otherwise the body is cleared and the first 50 items are rendered in
order.  `prices = none` models a non-array feed (`prices || []`). -/
def renderMarketsTo (tbody : Option (List MarketRow))
    (prices : Option (List PriceItem)) : Option (List MarketRow) :=
  match tbody with
  | none => none
  | some _ => some (((prices.getD []).take 50).foldl (fun acc c => acc ++ [marketRowOf c]) [])

/-- The label text of one ticker span:
`"#{rank} {SYMBOL} ${price}"` with falsy rank and missing price omitted. -/
def tickerLabel (p : PriceItem) : String :=
  let sym := (p.symbol.getD "").toUpper
  let rankTok := match p.rank with
    | some r => if r = 0 then "" else "#" ++ toString r
    | none => ""
  let priceTok := match p.price with
    | some v => "$" ++ toLocaleString v
    | none => ""
  rankTok ++ " " ++ sym ++ " " ++ priceTok

/-- `wrap.clientWidth || 800`: an unmeasured (zero) container width falls back
to 800. -/
def containerWidth (w : ℕ) : ℕ := if w = 0 then 800 else w

/-- Width added by the i-th appended clone: `clone.scrollWidth || containerW`. -/
def cloneStep (cW : ℕ) (widths : ℕ → ℕ) (i : ℕ) : ℕ :=
  if widths i = 0 then cW else widths i

/-- The cloning loop `while (totalW < containerW * 2) ...`, fuel-indexed:
returns the number of appended clones and the accumulated width.  The fuel
only bounds the iteration count; `cloneLoopAux_spec` shows the initial fuel
`target` is never exhausted since every step adds a positive width. -/
def cloneLoopAux (target cW : ℕ) (widths : ℕ → ℕ) : ℕ → ℕ → ℕ → ℕ × ℕ
  | 0, n, total => (n, total)
  | fuel + 1, n, total =>
    if total < target then
      cloneLoopAux target cW widths fuel (n + 1) (total + cloneStep cW widths n)
    else (n, total)

/-- The cloning loop started from an empty track. -/
def cloneLoop (target cW : ℕ) (widths : ℕ → ℕ) : ℕ × ℕ :=
  cloneLoopAux target cW widths target 0 0

/-- The `#ticker` element: its appended runs and its `--ticker-duration`
CSS variable. -/
structure TickTrack where
  content : List (List String)
  duration : Option String
deriving DecidableEq

/-- The DOM regions touched by the dashboard; `none` means the element is
absent from the document. -/
structure Dom where
  xBreaking : Option (List Entry)
  breaking : Option (List Entry)
  day : Option (List Entry)
  week : Option (List Entry)
  month : Option (List Entry)
  tickerWrapW : Option ℕ
  ticker : Option TickTrack
  marketBody : Option (List MarketRow)
  lastUpdated : Option String
deriving DecidableEq

/-- `setupTicker` from `src/app.js`.  `widths i` is the measured
`scrollWidth` of the i-th clone.  Note the track is cleared before the
empty-list early return, exactly as in the source. -/
def setupTicker (widths : ℕ → ℕ) (dom : Dom) (prices : List PriceItem) : Dom :=
  match dom.tickerWrapW, dom.ticker with
  | some w, some track =>
    let track1 : TickTrack := { track with content := [] }
    if prices.isEmpty then { dom with ticker := some track1 }
    else
      let run := prices.map tickerLabel
      let cW := containerWidth w
      let r := cloneLoop (cW * 2) cW widths
      let duration := max 20 ((r.2 + 50) / 100)
      { dom with ticker := some { content := List.replicate r.1 run,
                                  duration := some (toString duration ++ "s") } }
  | _, _ => dom

/-- The headlines feed object; missing buckets are `none` (`x || []` at use). -/
structure HeadlineFeed where
  x_breaking : Option (List Item)
  breaking : Option (List Item)
  day : Option (List Item)
  week : Option (List Item)
  month : Option (List Item)
  generated_at : Option String
deriving DecidableEq

/-- Failure taxonomy of one fetch. -/
inductive FetchError where
  | network : FetchError
  | httpNotOk : FetchError
  | badJson : FetchError
deriving DecidableEq

/-- What the network hands back for one request: a transport error, or a
response with an `ok` flag and a body that may or may not parse as JSON. -/
inductive FetchOutcome (α : Type) where
  | transportError : FetchOutcome α
  | response : Bool → Option α → FetchOutcome α

/-- `loadJSON` from `src/app.js`: rejects on transport error, throws on a
non-OK status before parsing, then rejects on malformed JSON. -/
def loadJSON {α : Type} : FetchOutcome α → Except FetchError α
  | FetchOutcome.transportError => Except.error FetchError.network
  | FetchOutcome.response ok body =>
    if ok then
      match body with
      | some v => Except.ok v
      | none => Except.error FetchError.badJson
    else Except.error FetchError.httpNotOk

/-- `setLastUpdated`: updates the label only when the element exists and the
timestamp is truthy; `locFmt` models `new Date(iso).toLocaleString()`. -/
def setLastUpdated (locFmt : String → String)
    (el : Option String) (iso : Option String) : Option String :=
  match el, iso with
  | some old, some s => if s = "" then some old else some ("Last updated " ++ locFmt s)
  | e, _ => e

/-- The prices JSON value: `none` models a feed that is not an array. -/
def PricesJson : Type := Option (List PriceItem)

/-- `refreshAll` from `src/app.js` (flat-table variant): awaits both fetches;
any rejection is caught at the cycle boundary leaving the DOM untouched; on
success every renderer runs in order. -/
def refreshAll (parse : String → JsNum) (locFmt : String → String) (now : ℚ)
    (widths : ℕ → ℕ) (oh : FetchOutcome HeadlineFeed) (op : FetchOutcome PricesJson)
    (dom : Dom) : Dom :=
  match loadJSON oh, loadJSON op with
  | Except.ok hs, Except.ok ps =>
    let dom1 := { dom with
      xBreaking := renderListTo parse now dom.xBreaking (some (hs.x_breaking.getD []))
      breaking := renderListTo parse now dom.breaking (some (hs.breaking.getD []))
      day := renderListTo parse now dom.day (some (hs.day.getD []))
      week := renderListTo parse now dom.week (some (hs.week.getD []))
      month := renderListTo parse now dom.month (some (hs.month.getD [])) }
    let dom2 := setupTicker widths dom1 (ps.getD [])
    let dom3 := { dom2 with marketBody := renderMarketsTo dom2.marketBody (some (ps.getD [])) }
    { dom3 with lastUpdated := setLastUpdated locFmt dom3.lastUpdated hs.generated_at }
  | _, _ => dom

/-- The prices feed object of the split (gainers/losers) variant. -/
structure PricesFeed where
  prices : List PriceItem
  gainers : Option (List PriceItem)
  losers : Option (List PriceItem)
deriving DecidableEq

/-- The DOM regions touched by `renderGainersLosers`. -/
structure GLDom where
  gainersBody : Option (List MarketRow)
  losersBody : Option (List MarketRow)
  sentiment : Option String
deriving DecidableEq

/-- A gainers/losers row: the color class is applied unconditionally
(`cls`) whenever the change is a number. -/
def glRow (cls : String) (c : PriceItem) : MarketRow :=
  { sym := (c.symbol.getD "").toUpper
    priceText := match c.price with
      | some q => "$" ++ toLocaleString q
      | none => ""
    changeText := match c.change24h with
      | some q => fmtFixed2 q ++ "%"
      | none => "—"
    changeClass := match c.change24h with
      | some _ => some cls
      | none => none }

/-- The running sum `prices.reduce((sum, p) => sum + (p.change24h || 0), 0)`
as a JS number. -/
def sentimentSum (ps : List PriceItem) : JsNum :=
  ps.foldl (fun s p => JsNum.add s (JsNum.num (p.change24h.getD 0))) (JsNum.num 0)

/-- `avgChange`: the sum divided by the length of the full price list, with no
guard against an empty list (JS `0/0` is NaN). -/
def sentimentAvg (ps : List PriceItem) : JsNum :=
  JsNum.div (sentimentSum ps) (JsNum.num (ps.length : ℚ))

/-- `avgChange > 0 ? 'Bullish' : 'Bearish'`. -/
def sentimentLabel (ps : List PriceItem) : String :=
  if JsNum.lt (JsNum.num 0) (sentimentAvg ps) then "Bullish" else "Bearish"

/-- The full sentiment indicator text. -/
def sentimentText (ps : List PriceItem) : String :=
  "Market Sentiment: " ++ sentimentLabel ps ++ " (Avg 24h Change: " ++
    jsToFixed2 (sentimentAvg ps) ++ "%)"

/-- `renderGainersLosers` from `src/app.js` (split variant): requires both
table bodies; renders up to 15 rows each, then publishes the sentiment text
when that element exists. -/
def renderGainersLosers (dom : GLDom) (feed : PricesFeed) : GLDom :=
  match dom.gainersBody, dom.losersBody with
  | some _, some _ =>
    { gainersBody := some (((feed.gainers.getD []).take 15).foldl
        (fun acc c => acc ++ [glRow "positive" c]) [])
      losersBody := some (((feed.losers.getD []).take 15).foldl
        (fun acc c => acc ++ [glRow "negative" c]) [])
      sentiment := match dom.sentiment with
        | some _ => some (sentimentText feed.prices)
        | none => none }
  | _, _ => dom

/-- Floor of a quotient of naturals in `ℚ` is natural division. -/
theorem floor_natCast_div (a b : ℕ) (hb : b ≠ 0) :
    Int.floor ((a : ℚ) / (b : ℚ)) = ((a / b : ℕ) : ℤ) := by
  have hb0 : (0:ℚ) < (b:ℚ) := by exact_mod_cast Nat.pos_of_ne_zero hb
  rw [Int.floor_eq_iff]
  constructor
  · rw [le_div_iff₀ hb0]
    exact_mod_cast Nat.div_mul_le_self a b
  · rw [div_lt_iff₀ hb0]
    have h1 := Nat.div_add_mod a b
    have h2 := Nat.mod_lt a (Nat.pos_of_ne_zero hb)
    have h3 : a < (a / b + 1) * b := by
      have hexp : (a / b + 1) * b = b * (a / b) + b := by ring
      omega
    exact_mod_cast h3

/-- `Math.floor(a / b)` on natural JS numbers is natural division. -/
theorem jsFloorDiv (a b : ℕ) (hb : b ≠ 0) :
    JsNum.floor (JsNum.div (JsNum.num (a:ℚ)) (JsNum.num (b:ℚ))) =
      JsNum.num ((a / b : ℕ) : ℚ) := by
  have hbq : ((b:ℚ)) ≠ 0 := Nat.cast_ne_zero.mpr hb
  simp only [JsNum.div, if_neg hbq, JsNum.floor]
  rw [floor_natCast_div a b hb, Int.cast_natCast]

/-- The JS `<` on natural JS numbers is the natural order. -/
theorem js_lt_nat (a b : ℕ) :
    JsNum.lt (JsNum.num (a:ℚ)) (JsNum.num (b:ℚ)) = decide (a < b) := by
  simp only [JsNum.lt]
  rw [decide_eq_decide]
  exact Nat.cast_lt

/-- JS stringification of a natural JS number is decimal. -/
theorem jsToString_nat (m : ℕ) :
    JsNum.jsToString (JsNum.num (m:ℚ)) = toString m := by
  simp only [JsNum.jsToString, Rat.den_natCast, Rat.num_natCast, if_pos]
  rfl

/-- `Math.max(0, now - t)` on integer times is the clamped elapsed time. -/
theorem js_delta (now t : ℤ) :
    JsNum.max0 (JsNum.sub (JsNum.num (now:ℚ)) (JsNum.num (t:ℚ))) =
      JsNum.num (((now - t).toNat : ℕ) : ℚ) := by
  simp only [JsNum.sub, JsNum.max0]
  congr 1
  rw [show (((now - t).toNat : ℕ) : ℚ) = (((now - t).toNat : ℤ) : ℚ) from
      (Int.cast_natCast _).symm, Int.toNat_eq_max]
  push_cast
  rw [max_comm]

/-- Claim C2: for every parseable timestamp, `fmtTimeAgo` computes
`max(0, now - t)` floored to whole minutes and returns the four spec tiers
(`just now` below one minute, minutes below 60, floored hours below 24, else
floored days), and the output tier is monotone in the elapsed time. -/
theorem fmtTimeAgo_tiers :
    (∀ now t : ℤ, fmtTimeAgo (now : ℚ) (JsNum.num (t : ℚ)) =
      fmtTimeAgoSpec (now - t).toNat) ∧
    (∀ e : ℕ, fmtTimeAgoSpec e = tierLabel (tierOf e) e) ∧
    (∀ a b : ℕ, a ≤ b → tierOf a ≤ tierOf b) := by
  refine ⟨?_, ?_, ?_⟩
  · intro now t
    simp only [fmtTimeAgo, js_delta now t]
    set e : ℕ := (now - t).toNat with he
    rw [show ((60000:ℚ)) = ((60000:ℕ):ℚ) by norm_num,
        show ((1:ℚ)) = ((1:ℕ):ℚ) by norm_num,
        show ((60:ℚ)) = ((60:ℕ):ℚ) by norm_num,
        show ((24:ℚ)) = ((24:ℕ):ℚ) by norm_num]
    rw [jsFloorDiv e 60000 (by norm_num)]
    rw [js_lt_nat (e/60000) 1, js_lt_nat (e/60000) 60]
    rw [jsFloorDiv (e/60000) 60 (by norm_num)]
    rw [js_lt_nat (e/60000/60) 24]
    rw [jsFloorDiv (e/60000/60) 24 (by norm_num)]
    rw [jsToString_nat, jsToString_nat, jsToString_nat]
    rw [show e / 60000 / 60 = e / 3600000 from by rw [Nat.div_div_eq_div_mul]]
    rw [show e / 3600000 / 24 = e / 86400000 from by rw [Nat.div_div_eq_div_mul]]
    unfold fmtTimeAgoSpec
    simp only [decide_eq_true_eq]
  · intro e
    unfold fmtTimeAgoSpec tierOf
    split_ifs <;> simp [tierLabel]
  · intro a b h
    have h1 : a / 60000 ≤ b / 60000 := Nat.div_le_div_right h
    have h2 : a / 3600000 ≤ b / 3600000 := Nat.div_le_div_right h
    unfold tierOf
    split_ifs <;> omega

/-- Claim C5 (refuted by the code): on an unparseable timestamp
`new Date(s).getTime()` is NaN and the `Date` constructor does not throw, so
every tier comparison on NaN is false and `fmtTimeAgo` falls through to the
days tier, returning `"NaNd ago"` — not the empty string of the dead `catch`
branch. -/
theorem fmtTimeAgo_unparseable :
    ∀ now : ℚ, fmtTimeAgo now JsNum.nan = "NaNd ago" ∧ fmtTimeAgo now JsNum.nan ≠ "" := by
  intro now
  refine ⟨rfl, ?_⟩
  rw [show fmtTimeAgo now JsNum.nan = "NaNd ago" from rfl]
  decide

/-- The container width fallback is always positive. -/
theorem containerWidth_pos (w : ℕ) : 0 < containerWidth w := by
  unfold containerWidth
  split <;> omega

/-- General invariant of the cloning loop: when every clone contributes a
positive width and the fuel covers the remaining gap, the loop exits with the
target reached, after at most `target - total` further iterations. -/
theorem cloneLoopAux_spec (target cW : ℕ) (widths : ℕ → ℕ)
    (hpos : ∀ i, 0 < cloneStep cW widths i) :
    ∀ fuel n total, target ≤ total + fuel →
      target ≤ (cloneLoopAux target cW widths fuel n total).2 ∧
      (cloneLoopAux target cW widths fuel n total).1 - n ≤ target - total := by
  intro fuel
  induction fuel with
  | zero =>
    intro n total h
    simp only [cloneLoopAux]
    omega
  | succ fuel ih =>
    intro n total h
    by_cases hlt : total < target
    · have hstep := hpos n
      have hrec := ih (n + 1) (total + cloneStep cW widths n) (by omega)
      simp only [cloneLoopAux, if_pos hlt]
      omega
    · simp only [cloneLoopAux, if_neg hlt]
      omega

/-- Invariant of the cloning loop with a constant positive clone width `cw`:
the accumulated width is exactly the clone count times `cw`, the target is
reached, and if any clone was appended the accumulated width overshoots the
target by less than one clone. -/
theorem cloneLoopAux_const (target cW cw : ℕ) (hcw : 0 < cw) :
    ∀ fuel n total, target ≤ total + fuel →
      n ≤ (cloneLoopAux target cW (fun _ => cw) fuel n total).1 ∧
      (cloneLoopAux target cW (fun _ => cw) fuel n total).2 =
        total + ((cloneLoopAux target cW (fun _ => cw) fuel n total).1 - n) * cw ∧
      target ≤ (cloneLoopAux target cW (fun _ => cw) fuel n total).2 ∧
      ((cloneLoopAux target cW (fun _ => cw) fuel n total).1 ≠ n →
        (cloneLoopAux target cW (fun _ => cw) fuel n total).2 < target + cw) := by
  have hstep : ∀ i, cloneStep cW (fun _ => cw) i = cw := by
    intro i
    unfold cloneStep
    simp [Nat.pos_iff_ne_zero.mp hcw]
  intro fuel
  induction fuel with
  | zero =>
    intro n total h
    simp only [cloneLoopAux]
    exact ⟨Nat.le_refl n, by simp, by omega, fun hx => absurd rfl hx⟩
  | succ fuel ih =>
    intro n total h
    by_cases hlt : total < target
    · have hrec := ih (n + 1) (total + cw) (by omega)
      simp only [cloneLoopAux, if_pos hlt, hstep]
      obtain ⟨ha, hb, hc, hd⟩ := hrec
      set r := cloneLoopAux target cW (fun _ => cw) fuel (n + 1) (total + cw) with hr
      refine ⟨by omega, ?_, hc, ?_⟩
      · have hk : r.1 - n = (r.1 - (n + 1)) + 1 := by omega
        rw [hk, Nat.succ_mul]
        omega
      · intro _
        by_cases hrn : r.1 = n + 1
        · have : r.2 = total + cw := by
            rw [hb, hrn]
            simp
          omega
        · exact hd hrn
    · simp only [cloneLoopAux, if_neg hlt]
      exact ⟨Nat.le_refl n, by simp, by omega, fun hx => absurd rfl hx⟩

/-- Claim C9: every iteration of the cloning loop adds a positive width (the
clone width, falling back to the container width, itself falling back to 800),
so for every width assignment the loop reaches the two-container-width bound,
in at most `2 * containerWidth w` iterations. -/
theorem cloneLoop_terminates :
    ∀ (w : ℕ) (widths : ℕ → ℕ),
      (∀ i, 0 < cloneStep (containerWidth w) widths i) ∧
      containerWidth w * 2 ≤ (cloneLoop (containerWidth w * 2) (containerWidth w) widths).2 ∧
      (cloneLoop (containerWidth w * 2) (containerWidth w) widths).1 ≤ containerWidth w * 2 := by
  intro w widths
  have hpos : ∀ i, 0 < cloneStep (containerWidth w) widths i := by
    intro i
    unfold cloneStep
    split
    · exact containerWidth_pos w
    · omega
  have hspec := cloneLoopAux_spec (containerWidth w * 2) (containerWidth w) widths hpos
    (containerWidth w * 2) 0 0 (by omega)
  unfold cloneLoop
  exact ⟨hpos, hspec.1, by omega⟩

/-- Claim C1: with a nonempty price list and clones of equal positive width,
`setupTicker` fills the track with whole clones of the run, the accumulated
width is the clone count times the clone width, it reaches twice the container
width, and the clone count is minimal among all counts reaching that bound. -/
theorem setupTicker_clones_minimal :
    ∀ (dom : Dom) (w : ℕ) (track : TickTrack) (prices : List PriceItem) (cw : ℕ),
      dom.tickerWrapW = some w → dom.ticker = some track → prices ≠ [] → 0 < cw →
      (setupTicker (fun _ => cw) dom prices).ticker =
        some { content := List.replicate
                 (cloneLoop (containerWidth w * 2) (containerWidth w) (fun _ => cw)).1
                 (prices.map tickerLabel),
               duration := some (toString (max 20
                 (((cloneLoop (containerWidth w * 2) (containerWidth w)
                     (fun _ => cw)).2 + 50) / 100)) ++ "s") } ∧
      (cloneLoop (containerWidth w * 2) (containerWidth w) (fun _ => cw)).2 =
        (cloneLoop (containerWidth w * 2) (containerWidth w) (fun _ => cw)).1 * cw ∧
      containerWidth w * 2 ≤
        (cloneLoop (containerWidth w * 2) (containerWidth w) (fun _ => cw)).2 ∧
      ∀ m : ℕ, containerWidth w * 2 ≤ m * cw →
        (cloneLoop (containerWidth w * 2) (containerWidth w) (fun _ => cw)).1 ≤ m := by
  intro dom w track prices cw h1 h2 hne hcw
  have hconst := cloneLoopAux_const (containerWidth w * 2) (containerWidth w) cw hcw
    (containerWidth w * 2) 0 0 (by omega)
  have hre : cloneLoopAux (containerWidth w * 2) (containerWidth w) (fun _ => cw)
      (containerWidth w * 2) 0 0 =
      cloneLoop (containerWidth w * 2) (containerWidth w) (fun _ => cw) := rfl
  rw [hre] at hconst
  set r := cloneLoop (containerWidth w * 2) (containerWidth w) (fun _ => cw) with hr
  obtain ⟨ha, hb, hc, hd⟩ := hconst
  have htotal : r.2 = r.1 * cw := by
    rw [hb]
    simp
  refine ⟨?_, htotal, hc, ?_⟩
  · unfold setupTicker
    rw [h1, h2]
    cases prices with
    | nil => exact absurd rfl hne
    | cons p ps => rfl
  · intro m hm
    by_cases h0 : r.1 = 0
    · omega
    · have hover : r.2 < containerWidth w * 2 + cw := hd h0
      have hmul : r.1 * cw < (m + 1) * cw := by
        have hexp : (m + 1) * cw = m * cw + cw := by ring
        omega
      have := Nat.lt_of_mul_lt_mul_right hmul
      omega

/-- Pushing elements one at a time onto an accumulator is `map`. -/
theorem foldl_push_eq_map {α β : Type} (f : α → β) :
    ∀ (l : List α) (acc : List β),
      l.foldl (fun a it => a ++ [f it]) acc = acc ++ l.map f := by
  intro l
  induction l with
  | nil => intro acc; simp
  | cons a l ih => intro acc; simp [ih]

/-- Claim C7: `renderList` replaces any prior content with exactly one entry
per item, in input order (so N items give N entries and the empty list gives
none), each entry an anchor carrying the item's title with the metadata
label; an absent target element is a no-op. -/
theorem renderList_entries :
    ∀ (parse : String → JsNum) (now : ℚ) (old : List Entry) (items : List Item),
      renderListTo parse now (some old) (some items) =
        some (items.map (entryOf parse now)) ∧
      (items.map (entryOf parse now)).length = items.length ∧
      renderListTo parse now none (some items) = none ∧
      ∀ it : Item, (entryOf parse now it).text = it.title ∧
        (entryOf parse now it).href = it.link ∧
        (entryOf parse now it).target = "_blank" ∧
        (entryOf parse now it).rel = "noopener" ∧
        (entryOf parse now it).metaText =
          fmtTimeAgo now (match it.published_at with | some s => parse s | none => JsNum.nan) ++
            (match it.source with | some s => if s = "" then "" else " • " ++ s | none => "") := by
  intro parse now old items
  refine ⟨?_, List.length_map items (entryOf parse now), rfl,
    fun it => ⟨rfl, rfl, rfl, rfl, rfl⟩⟩
  unfold renderListTo
  simp only [Option.getD_some]
  rw [foldl_push_eq_map]
  simp

/-- Claim C6: the flat market renderer emits exactly the first
`min(50, length)` items in order; each row carries the upper-cased symbol and
a change cell that is colored `positive` for nonnegative change (so for every
strictly positive change), `negative` for negative change, and shows an
em-dash with no color class when the change is missing. -/
theorem renderMarkets_rows :
    ∀ (old : List MarketRow) (prices : List PriceItem),
      renderMarketsTo (some old) (some prices) =
        some ((prices.take 50).map marketRowOf) ∧
      ((prices.take 50).map marketRowOf).length = min 50 prices.length ∧
      (∀ c : PriceItem, (marketRowOf c).sym = (c.symbol.getD "").toUpper) ∧
      (∀ (c : PriceItem) (q : ℚ), c.change24h = some q →
        (marketRowOf c).changeText = fmtFixed2 q ++ "%" ∧
        (marketRowOf c).changeClass = some (if 0 ≤ q then "positive" else "negative") ∧
        (0 < q → (marketRowOf c).changeClass = some "positive") ∧
        (q < 0 → (marketRowOf c).changeClass = some "negative")) ∧
      (∀ c : PriceItem, c.change24h = none →
        (marketRowOf c).changeText = "—" ∧ (marketRowOf c).changeClass = none) := by
  intro old prices
  refine ⟨?_, by simp, fun c => rfl, ?_, ?_⟩
  · unfold renderMarketsTo
    simp only [Option.getD_some]
    rw [foldl_push_eq_map]
    simp
  · intro c q hq
    unfold marketRowOf
    rw [hq]
    refine ⟨rfl, rfl, ?_, ?_⟩
    · intro hpos
      simp only [if_pos (le_of_lt hpos)]
    · intro hneg
      simp only [if_neg (not_le.mpr hneg)]
  · intro c hq
    unfold marketRowOf
    rw [hq]
    exact ⟨rfl, rfl⟩

/-- The reduce over `change24h || 0` is the rational sum of the defaulted
changes. -/
theorem sentimentSum_eq (ps : List PriceItem) :
    sentimentSum ps = JsNum.num ((ps.map (fun p => p.change24h.getD 0)).sum) := by
  unfold sentimentSum
  suffices h : ∀ (l : List PriceItem) (a : ℚ),
      l.foldl (fun s p => JsNum.add s (JsNum.num (p.change24h.getD 0))) (JsNum.num a) =
        JsNum.num (a + (l.map (fun p => p.change24h.getD 0)).sum) by
    rw [h ps 0, zero_add]
  intro l
  induction l with
  | nil =>
    intro a
    simp
  | cons p l ih =>
    intro a
    simp only [List.foldl_cons]
    rw [show JsNum.add (JsNum.num a) (JsNum.num (p.change24h.getD 0)) =
          JsNum.num (a + p.change24h.getD 0) from rfl,
        ih, List.map_cons, List.sum_cons, add_assoc]

/-- A number below 100, zero-padded to two digits, is two characters long. -/
theorem two_digit_pad : ∀ k : ℕ, k < 100 →
    ((if k < 10 then "0" else "") ++ toString k).length = 2 := by decide

/-- Claim C3: for a nonempty price list the sentiment mean is the rational
arithmetic mean of the defaulted `change24h` values, the label is `Bullish`
exactly when that mean is strictly positive and `Bearish` otherwise (zero
included), and the published text formats the mean with exactly two decimal
digits. -/
theorem sentiment_mean_label :
    ∀ ps : List PriceItem, ps ≠ [] →
      sentimentAvg ps = JsNum.num
        ((ps.map (fun p => p.change24h.getD 0)).sum / (ps.length : ℚ)) ∧
      (sentimentLabel ps = "Bullish" ↔
        0 < (ps.map (fun p => p.change24h.getD 0)).sum / (ps.length : ℚ)) ∧
      (sentimentLabel ps = "Bearish" ↔
        (ps.map (fun p => p.change24h.getD 0)).sum / (ps.length : ℚ) ≤ 0) ∧
      sentimentText ps = "Market Sentiment: " ++
        (if 0 < (ps.map (fun p => p.change24h.getD 0)).sum / (ps.length : ℚ)
          then "Bullish" else "Bearish") ++
        " (Avg 24h Change: " ++
        fmtFixed2 ((ps.map (fun p => p.change24h.getD 0)).sum / (ps.length : ℚ)) ++ "%)" ∧
      (∃ pre post : String,
        fmtFixed2 ((ps.map (fun p => p.change24h.getD 0)).sum / (ps.length : ℚ)) =
          pre ++ "." ++ post ∧ post.length = 2) := by
  intro ps hne
  set m : ℚ := (ps.map (fun p => p.change24h.getD 0)).sum / (ps.length : ℚ) with hm
  have hlen : ((ps.length : ℚ)) ≠ 0 := by
    have hl : ps.length ≠ 0 := fun h => hne (List.length_eq_zero.mp h)
    exact_mod_cast hl
  have havg : sentimentAvg ps = JsNum.num m := by
    unfold sentimentAvg
    rw [sentimentSum_eq]
    simp [JsNum.div, hlen, hm]
  have hlabel : sentimentLabel ps = if 0 < m then "Bullish" else "Bearish" := by
    unfold sentimentLabel
    rw [havg]
    simp [JsNum.lt]
  refine ⟨havg, ?_, ?_, ?_, ?_⟩
  · rw [hlabel]
    split_ifs with h <;> simp [h]
  · rw [hlabel]
    split_ifs with h
    · simp [h, not_le.mpr h]
    · simp [h, not_lt.mp h]
  · unfold sentimentText
    rw [hlabel, havg]
    rfl
  · refine ⟨(if m < 0 then "-" else "") ++ toString ((Int.floor (|m| * 100 + 1 / 2)).toNat / 100),
      (if (Int.floor (|m| * 100 + 1 / 2)).toNat % 100 < 10 then "0" else "") ++
        toString ((Int.floor (|m| * 100 + 1 / 2)).toNat % 100), ?_, ?_⟩
    · unfold fmtFixed2
      simp [String.append_assoc]
    · exact two_digit_pad _ (Nat.mod_lt _ (by norm_num))

/-- Claim C10: with an empty full price list (and the sentiment element
present) the mean divides by a zero length, `0/0` is NaN, the NaN comparison
makes the label `Bearish`, and the published percentage is the non-numeric
`"NaN%"`. -/
theorem sentiment_empty_nan :
    ∀ (g l : Option (List PriceItem)) (gb lb : List MarketRow) (s0 : String),
      ((⟨[], g, l⟩ : PricesFeed)).prices.length = 0 ∧
      sentimentAvg [] = JsNum.nan ∧
      (renderGainersLosers (⟨some gb, some lb, some s0⟩ : GLDom)
          (⟨[], g, l⟩ : PricesFeed)).sentiment =
        some "Market Sentiment: Bearish (Avg 24h Change: NaN%)" := by
  intro g l gb lb s0
  have hnan : sentimentAvg [] = JsNum.nan := by
    unfold sentimentAvg sentimentSum
    simp [JsNum.div]
  have htext : sentimentText [] = "Market Sentiment: Bearish (Avg 24h Change: NaN%)" := by
    unfold sentimentText sentimentLabel jsToFixed2
    rw [hnan]
    rfl
  refine ⟨rfl, hnan, ?_⟩
  unfold renderGainersLosers
  simp [htext]

/-- Claim C4: if either fetch of a refresh cycle fails — transport error,
non-OK HTTP status, or malformed JSON — the failure is caught inside the
cycle (`refreshAll` is total, so nothing propagates) and the DOM is returned
unchanged: no renderer runs. -/
theorem refreshAll_failure_frame :
    ∀ (parse : String → JsNum) (locFmt : String → String) (now : ℚ) (widths : ℕ → ℕ)
      (oh : FetchOutcome HeadlineFeed) (op : FetchOutcome PricesJson) (dom : Dom),
      ((∃ e, loadJSON oh = Except.error e) ∨ (∃ e, loadJSON op = Except.error e)) →
      refreshAll parse locFmt now widths oh op dom = dom := by
  intro parse locFmt now widths oh op dom h
  rcases h with ⟨e, he⟩ | ⟨e, he⟩
  · cases hop : loadJSON op <;> simp [refreshAll, he, hop]
  · cases hoh : loadJSON oh <;> simp [refreshAll, he, hoh]

/-- Counterexample to claim C8 as stated: with the DOM anchors present and an
empty price list, `setupTicker` is not a no-op — it clears the ticker
track's existing content before the early return. -/
theorem setupTicker_empty_not_noop :
    setupTicker (fun _ => 0)
      (⟨none, none, none, none, none, some 800, some ⟨[["X"]], none⟩, none, none⟩ : Dom) [] ≠
      (⟨none, none, none, none, none, some 800, some ⟨[["X"]], none⟩, none, none⟩ : Dom) := by
  decide

/-- Claim C8 as amended: with fewer than one price item and the anchors
present, `setupTicker` clears the ticker track's content and changes nothing
else — the duration variable and every other DOM region are preserved. -/
theorem setupTicker_empty_clears :
    ∀ (widths : ℕ → ℕ) (dom : Dom) (w : ℕ) (track : TickTrack),
      dom.tickerWrapW = some w → dom.ticker = some track →
      setupTicker widths dom [] =
        { dom with ticker := some { track with content := [] } } := by
  intro widths dom w track h1 h2
  unfold setupTicker
  rw [h1, h2]
  rfl

/-- Witness for `setupTicker_clones_minimal` at a concrete DOM, one price
item and clone width 1000 against container width 800. -/
theorem setupTicker_clones_minimal_witness :
    0 < 1000 ∧
    (setupTicker (fun _ => 1000)
        (⟨none, none, none, none, none, some 800, some ⟨[], none⟩, none, none⟩ : Dom)
        [⟨some "btc", none, none, none⟩]).ticker =
      some { content := List.replicate
               (cloneLoop (containerWidth 800 * 2) (containerWidth 800) (fun _ => 1000)).1
               ([(⟨some "btc", none, none, none⟩ : PriceItem)].map tickerLabel),
             duration := some (toString (max 20
               (((cloneLoop (containerWidth 800 * 2) (containerWidth 800)
                   (fun _ => 1000)).2 + 50) / 100)) ++ "s") } ∧
    containerWidth 800 * 2 ≤
      (cloneLoop (containerWidth 800 * 2) (containerWidth 800) (fun _ => 1000)).2 ∧
    (cloneLoop (containerWidth 800 * 2) (containerWidth 800) (fun _ => 1000)).1 ≤ 2 :=
  have h := setupTicker_clones_minimal
    (⟨none, none, none, none, none, some 800, some ⟨[], none⟩, none, none⟩ : Dom)
    800 ⟨[], none⟩ [⟨some "btc", none, none, none⟩] 1000 rfl rfl
    (List.cons_ne_nil _ _) (by decide)
  ⟨by decide, h.1, h.2.2.1, h.2.2.2 2 (by decide)⟩

/-- Witness for `fmtTimeAgo_tiers`: the tier is monotone across the 59 s to
one-day-plus boundary pair. -/
theorem fmtTimeAgo_tiers_witness : tierOf 59000 ≤ tierOf 86401000 :=
  fmtTimeAgo_tiers.2.2 59000 86401000 (by decide)

/-- Witness for `sentiment_mean_label` on a one-element list with change +4. -/
theorem sentiment_mean_label_witness :
    sentimentAvg [(⟨none, none, some 4, none⟩ : PriceItem)] =
      JsNum.num
        (([(⟨none, none, some 4, none⟩ : PriceItem)].map (fun p => p.change24h.getD 0)).sum /
          (([(⟨none, none, some 4, none⟩ : PriceItem)].length : ℚ))) ∧
    (sentimentLabel [(⟨none, none, some 4, none⟩ : PriceItem)] = "Bullish" ↔
      0 < ([(⟨none, none, some 4, none⟩ : PriceItem)].map (fun p => p.change24h.getD 0)).sum /
        (([(⟨none, none, some 4, none⟩ : PriceItem)].length : ℚ))) :=
  have h := sentiment_mean_label [⟨none, none, some 4, none⟩] (List.cons_ne_nil _ _)
  ⟨h.1, h.2.1⟩

/-- Witness for `refreshAll_failure_frame`: a transport error on the
headlines fetch leaves an all-absent DOM unchanged. -/
theorem refreshAll_failure_frame_witness :
    refreshAll (fun _ => JsNum.nan) (fun s => s) 0 (fun _ => 0)
      FetchOutcome.transportError (FetchOutcome.response true (some (some [])))
      (⟨none, none, none, none, none, none, none, none, none⟩ : Dom) =
      (⟨none, none, none, none, none, none, none, none, none⟩ : Dom) :=
  refreshAll_failure_frame _ _ _ _ _ _ _ (Or.inl ⟨FetchError.network, rfl⟩)

/-- Witness for `renderMarkets_rows` on concrete items with positive,
negative and missing changes. -/
theorem renderMarkets_rows_witness :
    renderMarketsTo (some []) (some [(⟨some "btc", none, some 3, none⟩ : PriceItem)]) =
      some (([(⟨some "btc", none, some 3, none⟩ : PriceItem)].take 50).map marketRowOf) ∧
    (marketRowOf (⟨some "btc", none, some 3, none⟩ : PriceItem)).changeClass =
      some "positive" ∧
    (marketRowOf (⟨some "eth", none, some (-2), none⟩ : PriceItem)).changeClass =
      some "negative" ∧
    (marketRowOf (⟨some "xrp", none, none, none⟩ : PriceItem)).changeText = "—" :=
  have h := renderMarkets_rows [] [⟨some "btc", none, some 3, none⟩]
  ⟨h.1, (h.2.2.2.1 ⟨some "btc", none, some 3, none⟩ 3 rfl).2.2.1 (by decide),
    (h.2.2.2.1 ⟨some "eth", none, some (-2), none⟩ (-2) rfl).2.2.2 (by decide),
    (h.2.2.2.2 ⟨some "xrp", none, none, none⟩ rfl).1⟩

/-- Witness for `setupTicker_empty_clears` at a concrete DOM with prior
ticker content and a set duration. -/
theorem setupTicker_empty_clears_witness :
    setupTicker (fun _ => 3)
      (⟨none, none, none, none, none, some 640, some ⟨[["A"]], some "20s"⟩, none, none⟩ : Dom)
      [] =
      (⟨none, none, none, none, none, some 640, some ⟨[], some "20s"⟩, none, none⟩ : Dom) :=
  setupTicker_empty_clears (fun _ => 3) _ 640 ⟨[["A"]], some "20s"⟩ rfl rfl
